import Mathlib

/-!
# Verification of the Cloudflare → registry sync scripts

Shallow embedding of the resource-sync pipeline of this repository:

* `CloudflareFetcher._paginated_fetch` and `get_all_resources`
  (src/lib/cloudflare_fetcher.py),
* `RegistryUpdater`'s write operations (src/lib/registry_updater.py),
* `sync_all_resources` (src/python/sync_all.py),
* the webhook handlers (src/python/webhook_listener.py).

Outbound HTTP calls are abstracted as parameters (the response, or the
raised `requests` exception, per call); everything the scripts compute from
those responses is translated directly from the Python source.
-/

namespace CloudflareSync

/-! ## Pagination (`CloudflareFetcher._paginated_fetch`)

The Python loop starts at `page = 1` with `per_page = 50` (hard-coded),
requests a page, appends `data['result']`, then breaks when
`page * per_page >= data.get('result_info', {}).get('total_count', 0)`;
otherwise it increments `page` and repeats.

`pages p` is the `result` list served for page `p`; `total_count` is the
provider-reported total (`none` models absent `result_info` /
`total_count`, which the chained `.get` defaults read as `0`).  The pair
returned is (accumulated results, number of page requests issued). -/

def fetchLoop (pages : Nat → List α) (total : Nat) (page : Nat)
    (acc : List α) (reqs : Nat) : List α × Nat :=
  let acc' := acc ++ pages page
  if total ≤ page * 50 then (acc', reqs + 1)
  else fetchLoop pages total (page + 1) acc' (reqs + 1)
termination_by total - page * 50
decreasing_by omega

def paginated_fetch (pages : Nat → List α) (total_count : Option Nat) :
    List α × Nat :=
  fetchLoop pages (total_count.getD 0) 1 [] 0

/-- Number of iterations of the fetch loop started at `page`. -/
def iterCount (total : Nat) (page : Nat) : Nat :=
  if total ≤ page * 50 then 1 else iterCount total (page + 1) + 1
termination_by total - page * 50
decreasing_by omega

/-- A provider that serves, for page `p`, the `p`-th slice of 50 of a
fixed master list: each page holds `min 50 remaining` items. -/
def slicePages (items : List α) : Nat → List α :=
  fun p => (items.drop ((p - 1) * 50)).take 50

theorem iterCount_eq (t p : Nat) :
    iterCount t p = (t - p * 50 + 49) / 50 + 1 := by
  have key : ∀ m p, t - p * 50 ≤ m →
      iterCount t p = (t - p * 50 + 49) / 50 + 1 := by
    intro m
    induction m with
    | zero => intro p hp; rw [iterCount]; split <;> omega
    | succ m ih =>
      intro p hp
      rw [iterCount]
      split
      · omega
      · rw [ih (p + 1) (by omega)]
        omega
  exact key (t - p * 50) p le_rfl

theorem fetchLoop_slice (items : List α) (p : Nat) (hp : 1 ≤ p)
    (acc : List α) (reqs : Nat) :
    fetchLoop (slicePages items) items.length p acc reqs
      = (acc ++ items.drop ((p - 1) * 50), reqs + iterCount items.length p) := by
  have key : ∀ m p, 1 ≤ p → items.length - p * 50 ≤ m → ∀ acc reqs,
      fetchLoop (slicePages items) items.length p acc reqs
        = (acc ++ items.drop ((p - 1) * 50),
           reqs + iterCount items.length p) := by
    intro m
    induction m with
    | zero =>
      intro p hp hm acc reqs
      rw [fetchLoop, iterCount]
      have hle : items.length ≤ p * 50 := by omega
      simp only [if_pos hle]
      have hlen : (items.drop ((p - 1) * 50)).length ≤ 50 := by
        rw [List.length_drop]; omega
      simp only [slicePages, List.take_of_length_le hlen]
    | succ m ih =>
      intro p hp hm acc reqs
      rw [fetchLoop, iterCount]
      split
      · rename_i hle
        have hlen : (items.drop ((p - 1) * 50)).length ≤ 50 := by
          rw [List.length_drop]; omega
        simp only [slicePages, List.take_of_length_le hlen]
      · rename_i hgt
        rw [ih (p + 1) (by omega) (by omega)]
        have hsplit : slicePages items p ++ items.drop ((p + 1 - 1) * 50)
            = items.drop ((p - 1) * 50) := by
          have h50 : (p + 1 - 1) * 50 = (p - 1) * 50 + 50 := by omega
          calc slicePages items p ++ items.drop ((p + 1 - 1) * 50)
              = (items.drop ((p - 1) * 50)).take 50
                ++ (items.drop ((p - 1) * 50)).drop 50 := by
                rw [slicePages, List.drop_drop, h50]
            _ = items.drop ((p - 1) * 50) := List.take_append_drop _ _
        rw [List.append_assoc, hsplit, Prod.mk.injEq]
        exact ⟨rfl, by omega⟩
  exact key (items.length - p * 50) p hp le_rfl acc reqs

/-- **C1.** For every list of (distinct) items and the provider that serves
page `p` as the `p`-th slice of 50 — i.e. each page holds
`min 50 remaining` distinct items — the paginated fetch returns exactly the
master list (so exactly `total_count` items, with no duplicates when the
items are distinct); it issues a single page request when `total_count = 0`
and when the `result_info` pagination metadata is absent, and when
`total_count` is exactly divisible by the page size 50 it issues exactly
`total_count / 50` requests, with no extra request past the last page. -/
theorem paginated_fetch_spec (items : List α) (hnd : items.Nodup)
    (pages : Nat → List α) :
    (paginated_fetch (slicePages items) (some items.length)).1 = items
  ∧ (paginated_fetch (slicePages items) (some items.length)).1.Nodup
  ∧ (paginated_fetch (slicePages items) (some items.length)).1.length
      = items.length
  ∧ (items.length = 0 →
      (paginated_fetch (slicePages items) (some items.length)).2 = 1)
  ∧ (items.length % 50 = 0 → items.length ≠ 0 →
      (paginated_fetch (slicePages items) (some items.length)).2
        = items.length / 50)
  ∧ (paginated_fetch pages (none : Option Nat)).2 = 1
  ∧ (paginated_fetch pages (none : Option Nat)).1 = pages 1 := by
  have hmain : paginated_fetch (slicePages items) (some items.length)
      = (items, iterCount items.length 1) := by
    rw [paginated_fetch, Option.getD_some, fetchLoop_slice items 1 le_rfl]
    simp
  have hcount := iterCount_eq items.length 1
  have hnone : paginated_fetch pages (none : Option Nat)
      = (pages 1, 1) := by
    rw [paginated_fetch, Option.getD_none, fetchLoop]
    simp
  refine ⟨by rw [hmain], by rw [hmain]; exact hnd, by rw [hmain],
    fun h0 => ?_, fun hdvd hne => ?_, by rw [hnone], by rw [hnone]⟩
  · rw [hmain]; omega
  · rw [hmain]; simp only; omega

/-- Witness for C1: a 50-item fetch (`total_count` divisible by the page
size) answers in exactly one request and returns all 50 items; a fetch with
absent pagination metadata answers in one request. -/
theorem paginated_fetch_spec_witness :
    (paginated_fetch (slicePages (List.range 50))
        (some (List.range 50).length)).1 = List.range 50
  ∧ (paginated_fetch (slicePages (List.range 50))
        (some (List.range 50).length)).2 = (List.range 50).length / 50
  ∧ (paginated_fetch (fun _ : Nat => [7]) (none : Option Nat)).2 = 1 :=
  ⟨(paginated_fetch_spec (List.range 50) (List.nodup_range 50) (fun _ => [7])).1,
   (paginated_fetch_spec (List.range 50) (List.nodup_range 50)
      (fun _ => [7])).2.2.2.2.1 (by simp) (by simp),
   (paginated_fetch_spec (List.range 50) (List.nodup_range 50)
      (fun _ => [7])).2.2.2.2.2.1⟩

/-! ## Resource records and the registry client (`src/lib/registry_updater.py`)

Each write operation wraps its single outbound `requests` call in
`try: ... except requests.exceptions.RequestException as e:`; the `except`
branch builds a literal failure dictionary.  The outbound call itself is
abstracted as an `HttpOutcome` parameter. -/

/-- The fields of a provider resource dictionary that the modelled code
reads (`resource.get('id')`, `resource.get('name')`,
`resource['resource_type']`); `none` models a missing key. -/
structure Resource where
  id : Option String
  name : Option String
  resource_type : Option String
deriving DecidableEq

/-- JSON-ish values appearing in the locally constructed failure
dictionaries. -/
inductive JVal where
  | s (v : String)
  | n (v : Nat)
  | b (v : Bool)
  | null
deriving DecidableEq

/-- A possibly-missing string serialized into a failure dictionary
(Python `None` → JSON `null`). -/
def jopt : Option String → JVal
  | none => JVal.null
  | some v => JVal.s v

/-- Outcome of one outbound `requests` call inside a `try` block: either a
response that passed `raise_for_status()` and whose body parsed as JSON
(abstracted as `body`), or a raised
`requests.exceptions.RequestException` carrying message `msg`. -/
inductive HttpOutcome where
  | ok (body : List (String × JVal))
  | exn (msg : String)
deriving DecidableEq

/-- What a `RegistryUpdater` write operation returns: `response.json()` on
success, or the locally constructed failure dictionary. -/
inductive OpResult where
  | fromServer (body : List (String × JVal))
  | failureDict (fields : List (String × JVal))
deriving DecidableEq

/-- `RegistryUpdater.register_resource` (registry_updater.py:29-55). -/
def register_resource (resource : Resource) (outcome : HttpOutcome) :
    OpResult :=
  match outcome with
  | .ok body => .fromServer body
  | .exn e => .failureDict
      [("success", JVal.b false), ("error", JVal.s e),
       ("resource", jopt resource.name)]

/-- `RegistryUpdater.update_resource` (registry_updater.py:57-74); the
`updates` payload only flows into the abstracted outbound call. -/
def update_resource (resource_id : String)
    (_updates : List (String × JVal)) (outcome : HttpOutcome) : OpResult :=
  match outcome with
  | .ok body => .fromServer body
  | .exn e => .failureDict
      [("success", JVal.b false), ("error", JVal.s e),
       ("resource_id", JVal.s resource_id)]

/-- `RegistryUpdater.delete_resource` (registry_updater.py:76-88); the
webhook call site passes `resource_data.get('id')`, which may be absent,
hence the `Option`. -/
def delete_resource (resource_id : Option String) (outcome : HttpOutcome) :
    OpResult :=
  match outcome with
  | .ok body => .fromServer body
  | .exn e => .failureDict
      [("success", JVal.b false), ("error", JVal.s e),
       ("resource_id", jopt resource_id)]

/-- `RegistryUpdater.bulk_register` (registry_updater.py:90-120). -/
def bulk_register (resources : List Resource) (outcome : HttpOutcome) :
    OpResult :=
  match outcome with
  | .ok body => .fromServer body
  | .exn e => .failureDict
      [("success", JVal.b false), ("error", JVal.s e),
       ("count", JVal.n resources.length)]

/-- `RegistryUpdater.sync_resources` (registry_updater.py:122-142). -/
def sync_resources (resource_type : String) (resources : List Resource)
    (outcome : HttpOutcome) : OpResult :=
  match outcome with
  | .ok body => .fromServer body
  | .exn e => .failureDict
      [("success", JVal.b false), ("error", JVal.s e),
       ("resource_type", JVal.s resource_type),
       ("count", JVal.n resources.length)]

/-- **C5.** Every write operation of the Registry Client, on a network or
HTTP-status failure of its outbound call (a raised
`requests.exceptions.RequestException`, which `raise_for_status` failures
are), returns the uniform failure dictionary `success: false`, the error
message, and the operation's identifying fields — the exception never
propagates to the caller (each modelled operation is a total function of
the outcome). -/
theorem registry_write_failure_uniform (e : String) (r : Resource)
    (rid : String) (u : List (String × JVal)) (rid2 : Option String)
    (rs : List Resource) (rt : String) :
    register_resource r (.exn e) = .failureDict
      [("success", JVal.b false), ("error", JVal.s e),
       ("resource", jopt r.name)]
  ∧ update_resource rid u (.exn e) = .failureDict
      [("success", JVal.b false), ("error", JVal.s e),
       ("resource_id", JVal.s rid)]
  ∧ delete_resource rid2 (.exn e) = .failureDict
      [("success", JVal.b false), ("error", JVal.s e),
       ("resource_id", jopt rid2)]
  ∧ bulk_register rs (.exn e) = .failureDict
      [("success", JVal.b false), ("error", JVal.s e),
       ("count", JVal.n rs.length)]
  ∧ sync_resources rt rs (.exn e) = .failureDict
      [("success", JVal.b false), ("error", JVal.s e),
       ("resource_type", JVal.s rt), ("count", JVal.n rs.length)] :=
  ⟨rfl, rfl, rfl, rfl, rfl⟩

/-! ## `CloudflareFetcher.get_all_resources` (cloudflare_fetcher.py:181-221)

The method initialises a dictionary of six empty lists, then runs one
`try: resources[kind] = self.get_<kind>() except Exception as e: print(...)`
block per kind, in sequence, and returns the dictionary. -/

/-- The per-kind fetch outcomes: each `get_*` call either returns its list
of records or raises. -/
structure FetchOutcomes where
  domains : Except String (List Resource)
  workers : Except String (List Resource)
  pages : Except String (List Resource)
  r2_buckets : Except String (List Resource)
  kv_namespaces : Except String (List Resource)
  durable_objects : Except String (List Resource)

/-- The dictionary returned by `get_all_resources`: always all six kinds. -/
structure ResourceMap where
  domains : List Resource
  workers : List Resource
  pages : List Resource
  r2_buckets : List Resource
  kv_namespaces : List Resource
  durable_objects : List Resource
deriving DecidableEq

/-- Effect of one `try/except` block: the dictionary entry keeps its
initialised `[]` when the fetch raises. -/
def recover : Except String (List Resource) → List Resource
  | .ok l => l
  | .error _ => []

/-- `CloudflareFetcher.get_all_resources`, as the sequence of guarded
assignments of the source. -/
def get_all_resources (o : FetchOutcomes) : ResourceMap :=
  let resources : ResourceMap := ⟨[], [], [], [], [], []⟩
  let resources := match o.domains with
    | .ok l => { resources with domains := l }
    | .error _ => resources
  let resources := match o.workers with
    | .ok l => { resources with workers := l }
    | .error _ => resources
  let resources := match o.pages with
    | .ok l => { resources with pages := l }
    | .error _ => resources
  let resources := match o.r2_buckets with
    | .ok l => { resources with r2_buckets := l }
    | .error _ => resources
  let resources := match o.kv_namespaces with
    | .ok l => { resources with kv_namespaces := l }
    | .error _ => resources
  let resources := match o.durable_objects with
    | .ok l => { resources with durable_objects := l }
    | .error _ => resources
  resources

theorem get_all_resources_eq (o : FetchOutcomes) :
    get_all_resources o
      = ⟨recover o.domains, recover o.workers, recover o.pages,
         recover o.r2_buckets, recover o.kv_namespaces,
         recover o.durable_objects⟩ := by
  obtain ⟨d, w, p, r2, kv, du⟩ := o
  cases d <;> cases w <;> cases p <;> cases r2 <;> cases kv <;> cases du <;>
    rfl

/-- **C4.** `get_all_resources` never raises and always returns a mapping
over all six kinds, equal to the pointwise recovery of the six fetch
outcomes (a raising fetch yields `[]` for its kind); consequently a
failing kind leaves every other kind's result exactly what it would have
been had that kind succeeded (shown here for each kind: the map under a
failing fetch equals the map under any successful fetch of that kind with
that kind's entry replaced by `[]`). -/
theorem get_all_resources_isolation (o : FetchOutcomes) :
    (get_all_resources o
      = ⟨recover o.domains, recover o.workers, recover o.pages,
         recover o.r2_buckets, recover o.kv_namespaces,
         recover o.durable_objects⟩)
  ∧ (∀ e l, get_all_resources { o with domains := .error e }
      = { get_all_resources { o with domains := .ok l } with domains := [] })
  ∧ (∀ e l, get_all_resources { o with workers := .error e }
      = { get_all_resources { o with workers := .ok l } with workers := [] })
  ∧ (∀ e l, get_all_resources { o with pages := .error e }
      = { get_all_resources { o with pages := .ok l } with pages := [] })
  ∧ (∀ e l, get_all_resources { o with r2_buckets := .error e }
      = { get_all_resources { o with r2_buckets := .ok l }
          with r2_buckets := [] })
  ∧ (∀ e l, get_all_resources { o with kv_namespaces := .error e }
      = { get_all_resources { o with kv_namespaces := .ok l }
          with kv_namespaces := [] })
  ∧ (∀ e l, get_all_resources { o with durable_objects := .error e }
      = { get_all_resources { o with durable_objects := .ok l }
          with durable_objects := [] }) := by
  refine ⟨get_all_resources_eq o, ?_, ?_, ?_, ?_, ?_, ?_⟩ <;>
    intro e l <;> rw [get_all_resources_eq, get_all_resources_eq] <;> rfl

/-! ## The sync orchestrator (`sync_all_resources`, sync_all.py:31-117)

The loop body per requested kind: skip unknown kinds; skip kinds whose
fetched list is empty; otherwise call `registry.sync_resources` inside
`try/except`, recording `len(resources)` in `summary['synced']` when the
returned dictionary's `success` is truthy, and the error message in
`summary['errors']` otherwise (or `str(e)` when the call raised).  After
the loop, `summary['total'] = sum(summary['synced'].values())` and the
function returns `0 if not summary['errors'] else 1`. -/

/-- What `registry.sync_resources(...)` produces for one kind, as the
orchestrator reads it: `ret ok err` is a returned dictionary with
`result.get('success', False)` truthiness `ok` and `result.get('error')`
value `err`; `exn msg` is a raised exception with `str(e) = msg`. -/
inductive SyncCallOutcome where
  | ret (ok : Bool) (err : Option String)
  | exn (msg : String)
deriving DecidableEq

/-- `available_types` (sync_all.py:52-59). -/
def available_types : List (String × String) :=
  [("domains", "domain"), ("workers", "worker"), ("pages", "pages"),
   ("r2_buckets", "r2_bucket"), ("kv_namespaces", "kv_namespace"),
   ("durable_objects", "durable_object")]

/-- The default `types_to_sync`: all known kinds, in table order. -/
def default_types : List String := available_types.map (fun kv => kv.1)

/-- Python dict assignment `d[k] = v` on an insertion-ordered mapping. -/
def upsert (k : String) (v : α) :
    List (String × α) → List (String × α)
  | [] => [(k, v)]
  | (k', v') :: t =>
      if k' = k then (k, v) :: t else (k', v') :: upsert k v t

/-- State of the `for resource_key in types_to_sync` loop; `calls` is the
instrumented list of kinds for which a registry sync call was issued. -/
structure LoopAcc where
  synced : List (String × Nat)
  errors : List (String × Option String)
  calls : List String
deriving DecidableEq

/-- One iteration of the loop (sync_all.py:63-89). -/
def syncStep (fetched : String → List Resource)
    (syncOut : String → SyncCallOutcome) (acc : LoopAcc) (key : String) :
    LoopAcc :=
  if (List.lookup key available_types).isNone then acc
  else
    let resources := fetched key
    if resources.isEmpty then acc
    else
      match syncOut key with
      | .ret true _ =>
          { acc with synced := upsert key resources.length acc.synced,
                     calls := acc.calls ++ [key] }
      | .ret false err =>
          { acc with errors := upsert key err acc.errors,
                     calls := acc.calls ++ [key] }
      | .exn m =>
          { acc with errors := upsert key (some m) acc.errors,
                     calls := acc.calls ++ [key] }

/-- The Sync Summary of one run, plus the run's exit status and the
instrumented registry-call list. -/
structure RunResult where
  timestamp : String
  synced : List (String × Nat)
  errors : List (String × Option String)
  total : Nat
  exit : Nat
  calls : List String
deriving DecidableEq

/-- `sync_all_resources` (sync_all.py:31-117): `fetched` is the
`all_resources.get(key, [])` view of the fetch results, `syncOut` the
per-kind registry call outcome, `types` the `types_to_sync` list and `ts`
the run timestamp. -/
def sync_all_resources (fetched : String → List Resource)
    (syncOut : String → SyncCallOutcome) (types : List String)
    (ts : String) : RunResult :=
  let a := types.foldl (syncStep fetched syncOut) ⟨[], [], []⟩
  { timestamp := ts
    synced := a.synced
    errors := a.errors
    total := (a.synced.map (fun kv => kv.2)).sum
    exit := if a.errors.isEmpty then 0 else 1
    calls := a.calls }

/-- `all_resources.get(resource_key, [])` over the dictionary returned by
`get_all_resources`. -/
def resourceMapGet (m : ResourceMap) (k : String) : List Resource :=
  if k = "domains" then m.domains
  else if k = "workers" then m.workers
  else if k = "pages" then m.pages
  else if k = "r2_buckets" then m.r2_buckets
  else if k = "kv_namespaces" then m.kv_namespaces
  else if k = "durable_objects" then m.durable_objects
  else []

/-- The C3 scenario fetch results: kind `domains` has 3 records, kind
`workers` has 1, everything else is empty. -/
def fetchedScenario : String → List Resource := fun k =>
  if k = "domains" then
    [⟨some "d1", some "a", none⟩, ⟨some "d2", some "b", none⟩,
     ⟨some "d3", some "c", none⟩]
  else if k = "workers" then [⟨some "w1", some "w", none⟩]
  else []

/-- The C3 scenario registry outcomes: syncing `workers` raises, every
other kind succeeds. -/
def syncOutScenario : String → SyncCallOutcome := fun k =>
  if k = "workers" then .exn "connection refused" else .ret true none

/-- **C3.** The run's exit status is `0` iff the summary's `errors` map is
empty after processing every requested kind, and `total` is the sum of the
counts in `synced`; and the concrete run where `domains` syncs 3 records
and the `workers` sync raises yields `synced = {domains: 3}`,
`errors = {workers: "connection refused"}`, `total = 3` and exit status
`1`. -/
theorem sync_exit_and_total (fetched : String → List Resource)
    (syncOut : String → SyncCallOutcome) (types : List String)
    (ts : String) :
    ((sync_all_resources fetched syncOut types ts).exit = 0
      ↔ (sync_all_resources fetched syncOut types ts).errors = [])
  ∧ (sync_all_resources fetched syncOut types ts).total
      = ((sync_all_resources fetched syncOut types ts).synced.map
          (fun kv => kv.2)).sum
  ∧ sync_all_resources fetchedScenario syncOutScenario default_types "t"
      = { timestamp := "t", synced := [("domains", 3)],
          errors := [("workers", some "connection refused")], total := 3,
          exit := 1, calls := ["domains", "workers"] } := by
  refine ⟨?_, rfl, by decide⟩
  cases hE : (types.foldl (syncStep fetched syncOut) ⟨[], [], []⟩).errors <;>
    simp [sync_all_resources, hE]

theorem lookup_upsert (k k' : String) (v : α) (l : List (String × α)) :
    List.lookup k' (upsert k v l)
      = if k' = k then some v else List.lookup k' l := by
  induction l with
  | nil =>
    by_cases h : k' = k
    · have hb : (k' == k) = true := beq_iff_eq.mpr h
      simp [upsert, List.lookup, hb, h]
    · have hb : (k' == k) = false := beq_eq_false_iff_ne.mpr h
      simp [upsert, List.lookup, hb, h]
  | cons hd tl ih =>
    obtain ⟨a, b⟩ := hd
    by_cases hak : a = k
    · subst hak
      by_cases h : k' = a
      · have hb : (k' == a) = true := beq_iff_eq.mpr h
        simp [upsert, List.lookup, hb, h]
      · have hb : (k' == a) = false := beq_eq_false_iff_ne.mpr h
        simp [upsert, List.lookup, hb, h]
    · by_cases h : k' = a
      · have hb : (k' == a) = true := beq_iff_eq.mpr h
        have hkk : ¬k' = k := by rw [h]; exact hak
        simp [upsert, List.lookup, hak, hb, hkk]
      · have hb : (k' == a) = false := beq_eq_false_iff_ne.mpr h
        simp [upsert, List.lookup, hak, hb, ih]

/-- Whether the registry call for kind `k` would be read as successful. -/
def succChk (syncOut : String → SyncCallOutcome) (k : String) : Bool :=
  match syncOut k with
  | .ret true _ => true
  | _ => false

theorem syncStep_disjoint_inv (fetched : String → List Resource)
    (syncOut : String → SyncCallOutcome) (acc : LoopAcc) (t : String)
    (h1 : ∀ k, (List.lookup k acc.synced).isSome → succChk syncOut k = true)
    (h2 : ∀ k, (List.lookup k acc.errors).isSome →
      succChk syncOut k = false) :
    (∀ k, (List.lookup k (syncStep fetched syncOut acc t).synced).isSome →
      succChk syncOut k = true)
  ∧ (∀ k, (List.lookup k (syncStep fetched syncOut acc t).errors).isSome →
      succChk syncOut k = false) := by
  by_cases hav : (List.lookup t available_types).isNone
  · simp only [syncStep, if_pos hav]; exact ⟨h1, h2⟩
  by_cases hres : (fetched t).isEmpty
  · simp only [syncStep, if_neg hav, if_pos hres]; exact ⟨h1, h2⟩
  rcases hso : syncOut t with ⟨ok, err⟩ | m
  · cases ok
    · simp only [syncStep, if_neg hav, if_neg hres, hso]
      refine ⟨h1, fun k hk => ?_⟩
      rw [lookup_upsert] at hk
      by_cases hkt : k = t
      · subst hkt; simp [succChk, hso]
      · rw [if_neg hkt] at hk; exact h2 k hk
    · simp only [syncStep, if_neg hav, if_neg hres, hso]
      refine ⟨fun k hk => ?_, h2⟩
      rw [lookup_upsert] at hk
      by_cases hkt : k = t
      · subst hkt; simp [succChk, hso]
      · rw [if_neg hkt] at hk; exact h1 k hk
  · simp only [syncStep, if_neg hav, if_neg hres, hso]
    refine ⟨h1, fun k hk => ?_⟩
    rw [lookup_upsert] at hk
    by_cases hkt : k = t
    · subst hkt; simp [succChk, hso]
    · rw [if_neg hkt] at hk; exact h2 k hk

theorem foldl_disjoint_inv (fetched : String → List Resource)
    (syncOut : String → SyncCallOutcome) :
    ∀ (types : List String) (acc : LoopAcc),
    (∀ k, (List.lookup k acc.synced).isSome → succChk syncOut k = true) →
    (∀ k, (List.lookup k acc.errors).isSome → succChk syncOut k = false) →
    (∀ k, (List.lookup k
        (types.foldl (syncStep fetched syncOut) acc).synced).isSome →
      succChk syncOut k = true)
  ∧ (∀ k, (List.lookup k
        (types.foldl (syncStep fetched syncOut) acc).errors).isSome →
      succChk syncOut k = false) := by
  intro types
  induction types with
  | nil => exact fun acc h1 h2 => ⟨h1, h2⟩
  | cons t ts ih =>
    intro acc h1 h2
    have hstep := syncStep_disjoint_inv fetched syncOut acc t h1 h2
    exact ih (syncStep fetched syncOut acc t) hstep.1 hstep.2

/-- **C7.** In every Sync Summary produced by an orchestration run — over
every list of requested kinds and every combination of per-kind fetch and
sync outcomes — each resource kind appears in at most one of the `synced`
and `errors` maps. -/
theorem sync_summary_disjoint (fetched : String → List Resource)
    (syncOut : String → SyncCallOutcome) (types : List String)
    (ts : String) (k : String) :
    List.lookup k (sync_all_resources fetched syncOut types ts).synced = none
  ∨ List.lookup k (sync_all_resources fetched syncOut types ts).errors
      = none := by
  have h := foldl_disjoint_inv fetched syncOut types ⟨[], [], []⟩
    (fun k hk => by simp [List.lookup] at hk)
    (fun k hk => by simp [List.lookup] at hk)
  by_cases hs :
      List.lookup k (sync_all_resources fetched syncOut types ts).synced
        = none
  · exact Or.inl hs
  · right
    by_cases he :
        List.lookup k (sync_all_resources fetched syncOut types ts).errors
          = none
    · exact he
    · exfalso
      have hs' := h.1 k (by
        simpa [sync_all_resources, Option.isSome_iff_ne_none] using hs)
      have he' := h.2 k (by
        simpa [sync_all_resources, Option.isSome_iff_ne_none] using he)
      rw [hs'] at he'
      exact Bool.noConfusion he'

theorem syncStep_skip_inv (fetched : String → List Resource)
    (syncOut : String → SyncCallOutcome) (k : String)
    (hk : fetched k = []) (acc : LoopAcc) (t : String)
    (h1 : k ∉ acc.calls) (h2 : List.lookup k acc.synced = none)
    (h3 : List.lookup k acc.errors = none) :
    k ∉ (syncStep fetched syncOut acc t).calls
  ∧ List.lookup k (syncStep fetched syncOut acc t).synced = none
  ∧ List.lookup k (syncStep fetched syncOut acc t).errors = none := by
  by_cases hav : (List.lookup t available_types).isNone
  · simp only [syncStep, if_pos hav]; exact ⟨h1, h2, h3⟩
  by_cases hres : (fetched t).isEmpty
  · simp only [syncStep, if_neg hav, if_pos hres]; exact ⟨h1, h2, h3⟩
  have hkt : ¬k = t := by
    intro h
    subst h
    rw [hk] at hres
    exact hres rfl
  have hmem : k ∉ acc.calls ++ [t] := by
    intro hmem
    rcases List.mem_append.mp hmem with h | h
    · exact h1 h
    · exact hkt (List.mem_singleton.mp h)
  rcases hso : syncOut t with ⟨ok, err⟩ | m
  · cases ok
    · simp only [syncStep, if_neg hav, if_neg hres, hso]
      exact ⟨hmem, h2, by rw [lookup_upsert, if_neg hkt]; exact h3⟩
    · simp only [syncStep, if_neg hav, if_neg hres, hso]
      exact ⟨hmem, by rw [lookup_upsert, if_neg hkt]; exact h2, h3⟩
  · simp only [syncStep, if_neg hav, if_neg hres, hso]
    exact ⟨hmem, h2, by rw [lookup_upsert, if_neg hkt]; exact h3⟩

theorem foldl_skip_inv (fetched : String → List Resource)
    (syncOut : String → SyncCallOutcome) (k : String)
    (hk : fetched k = []) :
    ∀ (types : List String) (acc : LoopAcc), k ∉ acc.calls →
    List.lookup k acc.synced = none → List.lookup k acc.errors = none →
    k ∉ (types.foldl (syncStep fetched syncOut) acc).calls
  ∧ List.lookup k (types.foldl (syncStep fetched syncOut) acc).synced = none
  ∧ List.lookup k (types.foldl (syncStep fetched syncOut) acc).errors
      = none := by
  intro types
  induction types with
  | nil => exact fun acc h1 h2 h3 => ⟨h1, h2, h3⟩
  | cons t ts ih =>
    intro acc h1 h2 h3
    have hstep := syncStep_skip_inv fetched syncOut k hk acc t h1 h2 h3
    exact ih (syncStep fetched syncOut acc t) hstep.1 hstep.2.1 hstep.2.2

/-- The C6 counterexample run: the `domains` fetch raises (`"boom"`),
every other fetch succeeds with an empty list, and the registry would
accept every sync. -/
def fetchErrorRun : RunResult :=
  sync_all_resources
    (resourceMapGet (get_all_resources
      ⟨.error "boom", .ok [], .ok [], .ok [], .ok [], .ok []⟩))
    (fun _ => .ret true none) default_types "t"

/-- **C6 counterexample.** In a run whose `domains` fetch raised, the
summary records nothing at all: `errors` is empty (the fetch error is
*not* recorded — it was swallowed inside `get_all_resources`, which
yielded `[]`, and the orchestrator silently skipped the kind), `synced`
is empty, no registry call is made, and the exit status is 0.  This
refutes the claim's "a fetch error is recorded, not silently skipped". -/
theorem fetch_error_not_recorded :
    fetchErrorRun.errors = [] ∧ fetchErrorRun.synced = []
  ∧ fetchErrorRun.calls = [] ∧ fetchErrorRun.exit = 0 := by decide

/-- **C6 (amended).** A requested kind whose fetched record list is empty
is skipped: no registry call is made for it and it appears in neither the
`synced` nor the `errors` map of the summary.  A fetch error for a kind
yields exactly this situation — `get_all_resources` converts the raised
exception into an empty list (shown for the `domains` kind), so a fetch
error is likewise silently skipped (only printed), not recorded in the
summary. -/
theorem zero_record_skip (fetched : String → List Resource)
    (syncOut : String → SyncCallOutcome) (types : List String)
    (ts : String) (k : String) (hk : fetched k = []) :
    (k ∉ (sync_all_resources fetched syncOut types ts).calls
  ∧ List.lookup k (sync_all_resources fetched syncOut types ts).synced
      = none
  ∧ List.lookup k (sync_all_resources fetched syncOut types ts).errors
      = none)
  ∧ (∀ o : FetchOutcomes, ∀ e : String, o.domains = Except.error e →
      resourceMapGet (get_all_resources o) "domains" = []) := by
  constructor
  · exact foldl_skip_inv fetched syncOut k hk types ⟨[], [], []⟩
      (by simp) (by simp [List.lookup]) (by simp [List.lookup])
  · intro o e he
    rw [get_all_resources_eq o]
    simp [resourceMapGet, he, recover]

/-- Witness for the amended C6: in the concrete fetch-error run, the
`domains` kind (whose fetched list is empty because its fetch raised)
triggers no registry call and appears in neither summary map. -/
theorem zero_record_skip_witness :
    "domains" ∉ fetchErrorRun.calls
  ∧ List.lookup "domains" fetchErrorRun.synced = none
  ∧ List.lookup "domains" fetchErrorRun.errors = none :=
  (zero_record_skip
    (resourceMapGet (get_all_resources
      ⟨.error "boom", .ok [], .ok [], .ok [], .ok [], .ok []⟩))
    (fun _ => .ret true none) default_types "t" "domains" (by decide)).1

/-! ## The run log write (sync_all.py:93-94)

`with open('sync_all.log', 'a') as log:
   log.write(json.dumps(summary, indent=2) + '\n')`

The serializer below models Python's `json.dumps(obj, indent=2)` for the
summary's shape (a dictionary whose keys are, in insertion order,
`timestamp`, `synced`, `errors`, `total`): a non-empty dictionary opens
with `{` and a newline, renders each entry on its own line at the current
indent plus two spaces, separates entries with `,\n`, and closes with a
newline and `}` at the current indent; an empty dictionary renders inline
as `{}`.  Strings are quoted with the basic escapes; `None` renders as
`null`.  Text is modelled as `List Char`. -/

def spaces (n : Nat) : List Char := List.replicate n ' '

def escapeChar (c : Char) : List Char :=
  if c = '"' then ['\\', '"']
  else if c = '\\' then ['\\', '\\']
  else if c = '\n' then ['\\', 'n']
  else [c]

/-- A JSON string literal. -/
def jstrChars (s : String) : List Char :=
  '"' :: (s.data.flatMap escapeChar) ++ ['"']

def natChars (n : Nat) : List Char := (Nat.repr n).data

/-- `sep.join` over already-rendered entries. -/
def joinSep (sep : List Char) : List (List Char) → List Char
  | [] => []
  | [x] => x
  | x :: xs => x ++ sep ++ joinSep sep xs

/-- One dictionary, rendered at indentation `ind` as
`json.dumps(_, indent=2)` renders it. -/
def dumpObj (ind : Nat) (entries : List (String × List Char)) :
    List Char :=
  match entries with
  | [] => ['{', '}']
  | _ =>
      ['{', '\n']
        ++ joinSep [',', '\n']
            (entries.map (fun kv =>
              spaces (ind + 2) ++ jstrChars kv.1 ++ [':', ' '] ++ kv.2))
        ++ ['\n'] ++ spaces ind ++ ['}']

def dumpErrVal : Option String → List Char
  | none => ['n', 'u', 'l', 'l']
  | some s => jstrChars s

/-- `json.dumps(summary, indent=2)` for a run's Sync Summary. -/
def dumpSummary (r : RunResult) : List Char :=
  dumpObj 0
    [("timestamp", jstrChars r.timestamp),
     ("synced", dumpObj 2 (r.synced.map (fun kv => (kv.1, natChars kv.2)))),
     ("errors", dumpObj 2 (r.errors.map (fun kv => (kv.1, dumpErrVal kv.2)))),
     ("total", natChars r.total)]

/-- The exact text one run appends to `sync_all.log`:
`json.dumps(summary, indent=2) + '\n'`. -/
def runLogRecord (r : RunResult) : List Char := dumpSummary r ++ ['\n']

/-- A concrete successful one-kind run, for evaluating the log write. -/
def logExampleRun : RunResult :=
  sync_all_resources
    (fun k => if k = "domains" then [⟨some "d1", some "a", none⟩] else [])
    (fun _ => .ret true none) default_types "2026-01-01T00:00:00"

/-- **C8 counterexample.** The text appended to `sync_all.log` for a
concrete run is *not* a single newline-terminated line: `json.dumps` with
`indent=2` pretty-prints the summary over several lines, so the appended
text contains eight newline characters, not one.  Consequently the lines
of the log, read line by line, are not independently valid JSON. -/
theorem run_log_not_single_line :
    (runLogRecord logExampleRun).count '\n' ≠ 1 := by decide

/-- **C8 (amended).** Every orchestration run appends to `sync_all.log`
exactly one record, `json.dumps(summary, indent=2) + '\n'`: a single
newline-terminated pretty-printed JSON document.  The record always ends
in a newline, but it spans multiple lines — it contains at least five
newline characters (the summary dictionary always has its four fixed
keys) — so the log is not newline-delimited single-line JSON. -/
theorem run_log_record_shape (r : RunResult) :
    runLogRecord r = dumpSummary r ++ ['\n']
  ∧ (runLogRecord r).getLast? = some '\n'
  ∧ 5 ≤ (runLogRecord r).count '\n' := by
  refine ⟨rfl, List.getLast?_concat _, ?_⟩
  simp only [runLogRecord, dumpSummary, dumpObj, joinSep, List.map,
    List.count_append, List.count_cons, List.count_nil]
  simp
  omega

/-! ## The webhook listener (`src/python/webhook_listener.py`)

`verify_signature` computes `hmac.new(WEBHOOK_SECRET.encode(), payload,
hashlib.sha256).hexdigest()` and compares it with the header value via
`hmac.compare_digest`.  The keyed hash is abstracted as a parameter
`mac : List Nat → String` (the hex HMAC-SHA256 of the raw body bytes under
the shared secret); `compare_digest` is constant-time string equality.
`json.loads` is abstracted as `parseJson : List Nat → Option WebhookData`
(`none` models a raised decode error); the handler reads
`data.get('event', {}).get('type', '')` — always a string — and
`data.get('data', {})`. -/

/-- The parts of a decoded webhook payload the handler reads. -/
structure WebhookData where
  event_type : String
  resource : Resource
deriving DecidableEq

/-- `hmac.compare_digest`: constant-time comparison, semantically
equality. -/
def compare_digest (a b : String) : Bool := a == b

/-- `verify_signature` (webhook_listener.py:22-28). -/
def verify_signature (mac : List Nat → String) (payload : List Nat)
    (signature : String) : Bool :=
  compare_digest (mac payload) signature

/-- `event_mapping` (webhook_listener.py:71-80). -/
def event_mapping : String → Option (String × String)
  | "zone.created" => some ("domain", "create")
  | "zone.updated" => some ("domain", "update")
  | "zone.deleted" => some ("domain", "delete")
  | "worker.deployed" => some ("worker", "update")
  | "worker.deleted" => some ("worker", "delete")
  | "pages.project.created" => some ("pages", "create")
  | "pages.deployment.started" => some ("pages", "update")
  | "pages.project.deleted" => some ("pages", "delete")
  | _ => none

/-- Response of the `/webhook/cloudflare` handler, instrumented with the
dispatched background tasks (resource_type, action, resource data) and
with whether `json.loads` was ever invoked on the payload. -/
structure WebhookResponse where
  status : Nat
  body_status : Option String
  tasks : List (String × String × Resource)
  parsedPayload : Bool
deriving DecidableEq

/-- `cloudflare_webhook` (webhook_listener.py:58-108). -/
def cloudflare_webhook (mac : List Nat → String)
    (parseJson : List Nat → Option WebhookData)
    (signature : String) (payload : List Nat) : WebhookResponse :=
  if ¬ verify_signature mac payload signature then
    ⟨403, none, [], false⟩
  else
    match parseJson payload with
    | none => ⟨500, none, [], true⟩
    | some d =>
        match event_mapping d.event_type with
        | some (resource_type, action) =>
            ⟨202, some "accepted", [(resource_type, action, d.resource)],
             true⟩
        | none => ⟨200, some "ignored", [], true⟩

/-- One line of `webhook_events.log` (webhook_listener.py:46-53). -/
structure EventLogEntry where
  action : String
  resource_type : String
  resource_id : Option String
  result : OpResult
deriving DecidableEq

/-- `handle_resource_update` (webhook_listener.py:30-56), run by a
dispatched background task; `regOutcome` abstracts the registry call's
outbound HTTP outcome.  Returns the `webhook_events.log` entry it
appends, or `none` when it writes nothing (unknown action returns before
the log write). -/
def handle_resource_update (regOutcome : HttpOutcome)
    (resource_type : String) (resource_data : Resource)
    (action : String) : Option EventLogEntry :=
  if action = "delete" then
    some ⟨action, resource_type, resource_data.id,
          delete_resource resource_data.id regOutcome⟩
  else if action = "create" ∨ action = "update" then
    let rd := { resource_data with resource_type := some resource_type }
    some ⟨action, resource_type, rd.id, register_resource rd regOutcome⟩
  else
    none

/-- A webhook request's full effect: the HTTP response together with all
`webhook_events.log` entries written by the dispatched background
tasks. -/
def webhookRun (mac : List Nat → String)
    (parseJson : List Nat → Option WebhookData) (regOutcome : HttpOutcome)
    (signature : String) (payload : List Nat) :
    WebhookResponse × List EventLogEntry :=
  let resp := cloudflare_webhook mac parseJson signature payload
  (resp, resp.tasks.filterMap (fun t =>
    handle_resource_update regOutcome t.1 t.2.2 t.2.1))

/-- **C2.** A request whose `X-Signature-256` header differs from the
hex-encoded HMAC-SHA256 of the raw body under the shared secret is
answered 403 with the payload never parsed and no background task
dispatched; a request whose header equals that HMAC and whose body parses
to an event type present in the mapping table is answered 202 with
exactly one background task dispatched. -/
theorem webhook_signature_gate (mac : List Nat → String)
    (parseJson : List Nat → Option WebhookData) (signature : String)
    (payload : List Nat) :
    (signature ≠ mac payload →
      cloudflare_webhook mac parseJson signature payload
        = ⟨403, none, [], false⟩)
  ∧ (signature = mac payload →
      ∀ (d : WebhookData) (rt act : String),
        parseJson payload = some d →
        event_mapping d.event_type = some (rt, act) →
        (cloudflare_webhook mac parseJson signature payload).status = 202
      ∧ (cloudflare_webhook mac parseJson signature payload).tasks.length
          = 1) := by
  constructor
  · intro h
    have hb : (mac payload == signature) = false :=
      beq_eq_false_iff_ne.mpr (fun hh => h hh.symm)
    simp [cloudflare_webhook, verify_signature, compare_digest, hb]
  · intro h d rt act hp hm
    have hb : (mac payload == signature) = true := beq_iff_eq.mpr h.symm
    simp [cloudflare_webhook, verify_signature, compare_digest, hb, hp, hm]

/-- Witness for C2: with the (abstracted) MAC that answers `"aa"`, a
request signed `"bb"` is rejected 403 unparsed, and a request signed
`"aa"` whose body decodes to a `zone.created` event is answered 202. -/
theorem webhook_signature_gate_witness :
    cloudflare_webhook (fun _ => "aa")
        (fun _ => some ⟨"zone.created", ⟨none, none, none⟩⟩) "bb" [0]
      = ⟨403, none, [], false⟩
  ∧ (cloudflare_webhook (fun _ => "aa")
        (fun _ => some ⟨"zone.created", ⟨none, none, none⟩⟩) "aa" [0]).status
      = 202 :=
  ⟨(webhook_signature_gate (fun _ => "aa")
      (fun _ => some ⟨"zone.created", ⟨none, none, none⟩⟩) "bb" [0]).1
      (by decide),
   ((webhook_signature_gate (fun _ => "aa")
      (fun _ => some ⟨"zone.created", ⟨none, none, none⟩⟩) "aa" [0]).2 rfl
      ⟨"zone.created", ⟨none, none, none⟩⟩ "domain" "create" rfl rfl).1⟩

/-- **C9.** A webhook request with a valid signature whose parsed event
type is absent from the mapping table is answered 200 with body status
`"ignored"`, no background task is dispatched, and nothing is written to
`webhook_events.log`. -/
theorem webhook_unknown_event_ignored (mac : List Nat → String)
    (parseJson : List Nat → Option WebhookData) (regOutcome : HttpOutcome)
    (signature : String) (payload : List Nat) (d : WebhookData)
    (hsig : signature = mac payload) (hp : parseJson payload = some d)
    (hm : event_mapping d.event_type = none) :
    (webhookRun mac parseJson regOutcome signature payload).1
      = ⟨200, some "ignored", [], true⟩
  ∧ (webhookRun mac parseJson regOutcome signature payload).2 = [] := by
  have hb : (mac payload == signature) = true := beq_iff_eq.mpr hsig.symm
  simp [webhookRun, cloudflare_webhook, verify_signature, compare_digest,
    hb, hp, hm]

/-- Witness for C9: a correctly signed `custom.unknown` event is ignored
with a 200 and no event-log write. -/
theorem webhook_unknown_event_ignored_witness :
    (webhookRun (fun _ => "aa")
        (fun _ => some ⟨"custom.unknown", ⟨none, none, none⟩⟩)
        (.exn "down") "aa" [0]).1
      = ⟨200, some "ignored", [], true⟩
  ∧ (webhookRun (fun _ => "aa")
        (fun _ => some ⟨"custom.unknown", ⟨none, none, none⟩⟩)
        (.exn "down") "aa" [0]).2 = [] :=
  webhook_unknown_event_ignored (fun _ => "aa")
    (fun _ => some ⟨"custom.unknown", ⟨none, none, none⟩⟩)
    (.exn "down") "aa" [0] ⟨"custom.unknown", ⟨none, none, none⟩⟩
    rfl rfl rfl

/-! ## The manual-sync endpoint (webhook_listener.py:110-137) -/

/-- `REGISTRY_API_KEY = os.getenv('REGISTRY_API_KEY', '')`
(webhook_listener.py:20). -/
def REGISTRY_API_KEY (env : String → Option String) : String :=
  (env "REGISTRY_API_KEY").getD ""

/-- `valid_types` (webhook_listener.py:118). -/
def valid_types : List String := ["domains", "workers", "pages", "all"]

/-- Response of `/webhook/manual-sync/<resource_type>`, instrumented with
the number of background sync tasks dispatched. -/
structure ManualSyncResponse where
  status : Nat
  body_status : Option String
  tasks : Nat
deriving DecidableEq

/-- `manual_sync` (webhook_listener.py:110-137): `header_api_key` is the
`X-API-Key` header (`none` when absent, read through `.get(_, '')`). -/
def manual_sync (registry_api_key : String)
    (header_api_key : Option String) (resource_type : String) :
    ManualSyncResponse :=
  let api_key := header_api_key.getD ""
  if api_key ≠ registry_api_key then ⟨401, none, 0⟩
  else if resource_type ∉ valid_types then ⟨400, none, 0⟩
  else ⟨202, some "sync_started", 1⟩

/-- **C10.** The manual-sync endpoint answers 401 exactly when the
`X-API-Key` header (absent read as `""`) differs from the configured
`REGISTRY_API_KEY`; with the `REGISTRY_API_KEY` environment variable
unset the configured key is `""`, so a request with a missing or empty
header passes the check and, for the valid resource type `"domains"`,
is answered 202 with one background sync dispatched. -/
theorem manual_sync_auth (registry_api_key : String)
    (header_api_key : Option String) (resource_type : String) :
    ((manual_sync registry_api_key header_api_key resource_type).status
        = 401
      ↔ header_api_key.getD "" ≠ registry_api_key)
  ∧ REGISTRY_API_KEY (fun _ => none) = ""
  ∧ manual_sync (REGISTRY_API_KEY (fun _ => none)) none "domains"
      = ⟨202, some "sync_started", 1⟩
  ∧ manual_sync (REGISTRY_API_KEY (fun _ => none)) (some "") "domains"
      = ⟨202, some "sync_started", 1⟩ := by
  refine ⟨?_, rfl, by decide, by decide⟩
  unfold manual_sync
  by_cases h : header_api_key.getD "" ≠ registry_api_key
  · simp [h]
  · simp only [if_neg h]
    split <;> simp [h]

end CloudflareSync
